import Mathlib

/-!
# Verification of the psession session-correlation engine

A shallow embedding of the psession repository (`src/manager.ts`, `src/port.ts`,
`src/session.ts`, `src/errors.ts`) in Lean 4, together with proofs about the
claims of the natural-language specification.

Modelling conventions:

* JavaScript values that appear as message payloads are embedded as `JSVal`;
  a property backed by a getter that throws on read is embedded as the
  distinguished field value `JSVal.vThrow`.
* The error-class hierarchy of `errors.ts` is embedded as `ErrClass` with an
  explicit `parentOf` relation mirroring `extends`.
* Stateful methods of `Session` / `SessionPort` become pure functions from
  state to state, emitting an event trace (`Event`): calls of the configured
  `sender`, armed per-call timers, and promise settlements.  A promise settles
  with the first `resolved`/`rejected` event naming its exchange id
  (`settleOf`), mirroring the settle-at-most-once semantics of JS promises.
* Timestamps are `Int` milliseconds passed explicitly (`Date.now()` becomes a
  `now` parameter); timers become events recording the armed delay, and a
  timer firing is an explicit later call of the corresponding method.
* The `sender` callback of a Port is characterised by whether it throws
  (`senderErr : Option ErrClass`); callback identity is a numeric tag where
  only identity matters (`ManagerOptions.sender`).
-/

namespace PSession

/-! ## JavaScript values (message envelopes, `isSession` inputs) -/

mutual

/-- An embedded JavaScript value.  `vThrow` stands for a property implemented
by a getter that throws when read; it only occurs as a field value inside
`vObj`. -/
inductive JSVal where
  | vNull
  | vUndefined
  | vBool (b : Bool)
  | vNum (n : Int)
  | vStr (s : String)
  | vObj (fields : JSFields)
  | vThrow
  deriving Repr, DecidableEq

/-- The ordered own-property list of a JS object. -/
inductive JSFields where
  | nil
  | cons (k : String) (v : JSVal) (rest : JSFields)
  deriving Repr, DecidableEq

end

namespace JSFields

/-- First field with the given name, if any. -/
def find (name : String) : JSFields → Option JSVal
  | .nil => none
  | .cons k v rest => if k = name then some v else find name rest

/-- Overwrite the (first) field with the given name in place; append it if
absent — JS property-insertion order. -/
def set (name : String) (v : JSVal) : JSFields → JSFields
  | .nil => .cons name v .nil
  | .cons k w rest =>
      if k = name then .cons k v rest else .cons k w (set name v rest)

end JSFields

namespace JSVal

/-- JS truthiness (`!message` is `!truthy message`). -/
def truthy : JSVal → Bool
  | vNull => false
  | vUndefined => false
  | vBool b => b
  | vNum n => n ≠ 0
  | vStr s => s ≠ ""
  | vObj _ => true
  | vThrow => true

/-- `typeof v === "object"`; in JS `typeof null` is `"object"`. -/
def typeofIsObject : JSVal → Bool
  | vNull => true
  | vObj _ => true
  | _ => false

/-- `name in v`: property-existence test; throws (TypeError) on `null` and
`undefined`, and on primitives in the positions this code can reach it. -/
def jsIn (name : String) : JSVal → Except Unit Bool
  | vObj fields => .ok ((fields.find name).isSome)
  | _ => .error ()

/-- `v[name]`: property read.  Throws on `null`/`undefined`; reading a field
backed by a throwing getter throws; primitives yield `undefined`. -/
def jsGet (name : String) : JSVal → Except Unit JSVal
  | vObj fields =>
      match fields.find name with
      | some vThrow => .error ()
      | some v => .ok v
      | none => .ok vUndefined
  | vNull => .error ()
  | vUndefined => .error ()
  | _ => .ok vUndefined

/-- An integral model of JS `Number(·)` string coercion for the strings
considered here: whitespace-only is `0`, integer literals parse, anything
else is `NaN` (represented as `none`). -/
def strToNum (s : String) : Option Int :=
  if s.trim = "" then some 0 else s.trim.toInt?

/-- JS `v > 0` under numeric coercion (plain objects coerce to `NaN` here;
`NaN` comparisons are false). -/
def jsGtZero : JSVal → Bool
  | vNum n => n > 0
  | vBool b => b
  | vStr s => match strToNum s with | some n => n > 0 | none => false
  | _ => false

/-- `message[name] = v` (in-place stamping; on non-objects a sloppy-mode
no-op). -/
def setField (m : JSVal) (name : String) (v : JSVal) : JSVal :=
  match m with
  | vObj fields => vObj (fields.set name v)
  | other => other

end JSVal

/-! ## `errors.ts`: the error-class hierarchy -/

/-- The error classes of `errors.ts`, plus the built-in `Error` and
`TypeError` they relate to. -/
inductive ErrClass where
  | jsError
  | jsTypeError
  | sessionError
  | sessionTimeoutError
  | sessionCancelError
  | sessionInvalidError
  | sessionAbortError
  deriving Repr, DecidableEq

namespace ErrClass

/-- The `extends` clause of each class. -/
def parentOf : ErrClass → Option ErrClass
  | jsError => none
  | jsTypeError => some jsError
  | sessionError => some jsError
  | sessionTimeoutError => some sessionError
  | sessionCancelError => some sessionError
  | sessionInvalidError => some sessionError
  | sessionAbortError => some sessionError

/-- `e instanceof c`: the class of `e` is `c` or inherits from it (the chain
here has depth at most 2). -/
def instanceOf (e c : ErrClass) : Bool :=
  e = c || parentOf e = some c ||
    ((parentOf e).bind parentOf) = some c

end ErrClass

/-! ## `isSession` (`manager.ts` / `port.ts`, identical bodies) -/

/-- The guarded body of `isSession`:
`typeof message === "object" && idName in message && message[idName] > 0`,
short-circuiting on a false conjunct and propagating any JS exception. -/
def isSessionBody (idName : String) (m : JSVal) : Except Unit Bool :=
  if !m.typeofIsObject then .ok false
  else
    match m.jsIn idName with
    | .error e => .error e
    | .ok has =>
        if !has then .ok false
        else
          match m.jsGet idName with
          | .error e => .error e
          | .ok v => .ok v.jsGtZero

/-- `SessionManager.isSession` / `SessionPort.isSession`:
`if (!message) return false; try { ...body... } catch { return false }`. -/
def isSession (idName : String) (m : JSVal) : Bool :=
  if !m.truthy then false
  else
    match isSessionBody idName m with
    | .ok b => b
    | .error _ => false

/-- The specification's classification (spec §4.1): true iff the message is a
non-null object containing the configured id field with a value greater than
zero, exceptions yielding false.  Stated directly from the spec's words, to
be compared with the source-derived `isSession`. -/
def specIsSession (idName : String) : JSVal → Bool
  | .vObj fields =>
      (fields.find idName).isSome &&
        (match JSVal.jsGet idName (.vObj fields) with
         | .ok v => v.jsGtZero
         | .error _ => false)
  | _ => false

/-! ## `session.ts`: options and state -/

/-- `Required<SessionOptions>`, as held by a constructed `Session`
(`this.options`). -/
structure SessOpts where
  timeout : Int
  retryCount : Nat
  retryInterval : Int
  deriving Repr, DecidableEq

/-- A per-call `SessionOptions` argument (every field optional;
`none` = the property is absent / `undefined`). -/
structure SessCallOpts where
  timeout : Option Int := none
  retryCount : Option Nat := none
  retryInterval : Option Int := none
  deriving Repr, DecidableEq

/-- JS `a || b` where `a` is an optional number: `undefined` and `0` are
falsy, anything else wins. -/
def jsOrNat : Option Nat → Nat → Nat
  | some n, d => if n = 0 then d else n
  | none, d => d

/-- JS `a || b` for optional integers (`undefined` and `0` falsy). -/
def jsOrInt : Option Int → Int → Int
  | some n, d => if n = 0 then d else n
  | none, d => d

/-- One field of `Object.assign(target, first, later)`: the later source wins
whenever its field is present. -/
def assignField {α : Type} (first later : Option α) : Option α :=
  match later with
  | some v => some v
  | none => first

/-- `const { timeout } = options ? Object.assign({}, options, this.options)
: this.options` (first line of `Session._send`).  `this.options` is
`Required<SessionOptions>`, so its `timeout` field is always present and —
being the *later* `Object.assign` source — overwrites any per-call value. -/
def effectiveTimeout : Option SessCallOpts → SessOpts → Int
  | none, sopts => sopts.timeout
  | some o, sopts => (assignField o.timeout (some sopts.timeout)).getD 0

/-- The mutable fields of a `Session` object.  The stored continuations
`_resolve` / `_reject` are represented by the exchange id of the promise
they settle (`none` = the field is `null`). -/
structure SessionState where
  id : Nat
  destroyed : Bool := false
  retrying : Bool := false
  pending : Bool := false
  lastSendTime : Int
  options : SessOpts
  resolveSlot : Option Nat := none
  rejectSlot : Option Nat := none
  deriving Repr, DecidableEq

/-- The `Session` constructor:
`Object.assign({ timeout: 0, retryCount: 0, retryInterval: 1000 }, options)`,
`pending = false`, `lastSendTime = Date.now()`, both continuations `null`. -/
def Session.init (id : Nat) (options : Option SessCallOpts) (now : Int) : SessionState :=
  { id := id
    lastSendTime := now
    options :=
      { timeout := (options.bind (·.timeout)).getD 0
        retryCount := (options.bind (·.retryCount)).getD 0
        retryInterval := (options.bind (·.retryInterval)).getD 1000 } }

/-! ## Events and promise settlement -/

/-- Observable effects of running session/port code: invocations of the
Port's `sender`, armed per-call timers, promise settlements, and the retry
loop's `await delay(...)`. -/
inductive Event where
  | senderCalled (msg : JSVal)
  | timerArmed (delayMs : Int)
  | resolved (exch : Nat) (msg : JSVal)
  | rejected (exch : Nat) (reason : Option ErrClass)
  | waited (ms : Int)
  deriving Repr, DecidableEq

/-- The settlement of one promise. -/
inductive Outcome where
  | resolvedWith (m : JSVal)
  | rejectedWith (reason : Option ErrClass)
  deriving Repr, DecidableEq

/-- The settlement of the promise of exchange `k`: a JS promise settles with
the *first* resolve/reject call that reaches it; later calls are no-ops. -/
def settleOf : List Event → Nat → Option Outcome
  | [], _ => none
  | .resolved k m :: rest, j =>
      if k = j then some (.resolvedWith m) else settleOf rest j
  | .rejected k r :: rest, j =>
      if k = j then some (.rejectedWith r) else settleOf rest j
  | _ :: rest, j => settleOf rest j

/-! ## `session.ts`: methods -/

/-- `Session.timeout()`: `pending = false; if (this._reject)
this._reject(new SessionTimeoutError())`.  The continuation slots are *not*
cleared. -/
def Session.timeout (s : SessionState) : SessionState × List Event :=
  ({ s with pending := false },
   match s.rejectSlot with
   | some k => [.rejected k (some .sessionTimeoutError)]
   | none => [])

/-- `Session.cancel()`: rejects with `SessionCancelError`; slots kept. -/
def Session.cancel (s : SessionState) : SessionState × List Event :=
  ({ s with pending := false },
   match s.rejectSlot with
   | some k => [.rejected k (some .sessionCancelError)]
   | none => [])

/-- `Session.abort(e?)`: rejects with the given reason (possibly
`undefined`); slots kept. -/
def Session.abort (e : Option ErrClass) (s : SessionState) : SessionState × List Event :=
  ({ s with pending := false },
   match s.rejectSlot with
   | some k => [.rejected k e]
   | none => [])

/-- `Session.next(message)`: `pending = false; if (this._resolve)
this._resolve(message)` — the message is passed on verbatim and the slots
are *not* cleared. -/
def Session.next (s : SessionState) (message : JSVal) : SessionState × List Event :=
  ({ s with pending := false },
   match s.resolveSlot with
   | some k => [.resolved k message]
   | none => [])

/-- `Session._send` (one attempt): set `pending`, update `lastSendTime`,
stamp the session id onto the message under `idName`, store the new
exchange's continuations (exchange id `k`), call `port.send`; on a
synchronous sender throw, `abort(e)`; otherwise, if the effective timeout is
positive, arm a timer for it. -/
def Session._send (idName : String) (senderErr : Option ErrClass) (now : Int)
    (s : SessionState) (message : JSVal) (options : Option SessCallOpts) (k : Nat) :
    SessionState × JSVal × List Event :=
  let t := effectiveTimeout options s.options
  let s := { s with pending := true, lastSendTime := now }
  let stamped := message.setField idName (.vNum s.id)
  let s := { s with resolveSlot := some k, rejectSlot := some k }
  match senderErr with
  | none =>
      (s, stamped, [.senderCalled stamped] ++ (if t > 0 then [.timerArmed t] else []))
  | some e =>
      let r := Session.abort (some e) s
      (r.1, stamped, r.2)

/-- How the environment settles one attempt: the peer replies (the owner
feeds it to `next()`), a timer or the sweep fires `timeout()`, or the caller
fires `cancel()` / `abort()` while the attempt is pending. -/
inductive AttemptEnv where
  | reply (message : JSVal)
  | timedOut
  | canceled
  | aborted (e : Option ErrClass)

/-- One awaited attempt of `send`: run `_send` with exchange id `k`, let the
environment settle it, and read the attempt's result off the promise of
exchange `k` (first settlement wins). -/
def runAttempt (idName : String) (senderErr : Option ErrClass) (now : Int)
    (s : SessionState) (message : JSVal) (options : Option SessCallOpts) (k : Nat)
    (env : AttemptEnv) : SessionState × List Event × Except (Option ErrClass) JSVal :=
  let a := Session._send idName senderErr now s message options k
  let b :=
    match env with
    | .reply m => Session.next a.1 m
    | .timedOut => Session.timeout a.1
    | .canceled => Session.cancel a.1
    | .aborted e => Session.abort e a.1
  let ev := a.2.2 ++ b.2
  (b.1, ev,
    match settleOf ev k with
    | some (.resolvedWith m) => .ok m
    | some (.rejectedWith r) => .error r
    | none => .error (some .sessionAbortError))

/-- The retry loop of `Session.send` together with its
`finally { this.retrying = false }`.  `remaining` attempts are left, the
current loop index is `i`, attempt `i` uses exchange id `k0 + i` and is
settled by `env i`; `hasError` is the last caught rejection reason
(`none` = still `undefined`).  When the attempts are exhausted the loop
throws `hasError` if truthy, else a fresh `SessionAbortError`.  Between two
attempts the loop waits `retryInterval` ms. -/
def sendLoop (idName : String) (senderErr : Option ErrClass) (now : Nat → Int)
    (message : JSVal) (options : Option SessCallOpts) (rInterval : Int)
    (env : Nat → AttemptEnv) (k0 : Nat) :
    Nat → Nat → Option ErrClass → SessionState →
      SessionState × List Event × Except (Option ErrClass) JSVal
  | 0, _, hasError, s =>
      ({ s with retrying := false }, [],
       match hasError with
       | some e => .error (some e)
       | none => .error (some .sessionAbortError))
  | remaining + 1, i, _, s =>
      let s1 := if i > 0 then { s with retrying := true } else s
      let a := runAttempt idName senderErr (now i) s1 message options (k0 + i) (env i)
      match a.2.2 with
      | .ok v => ({ a.1 with retrying := false }, a.2.1, .ok v)
      | .error r =>
          let waitEv : List Event := if remaining = 0 then [] else [.waited rInterval]
          let rest :=
            sendLoop idName senderErr now message options rInterval env k0
              remaining (i + 1) r a.1
          (rest.1, a.2.1 ++ waitEv ++ rest.2.1, rest.2.2)

/-- `Session.send`: fail immediately with `SessionInvalidError` when
`destroyed`; compute the effective retry count
`(options?.retryCount || this.options.retryCount) + 1`; a count of 1 is a
single bare `_send` attempt, otherwise the retry loop runs. -/
def Session.send (idName : String) (senderErr : Option ErrClass) (now : Nat → Int)
    (s : SessionState) (message : JSVal) (options : Option SessCallOpts)
    (env : Nat → AttemptEnv) (k0 : Nat) :
    SessionState × List Event × Except (Option ErrClass) JSVal :=
  if s.destroyed then (s, [], .error (some .sessionInvalidError))
  else
    let retryCount := jsOrNat (options.bind (·.retryCount)) s.options.retryCount + 1
    if retryCount > 1 then
      let rInterval := jsOrInt (options.bind (·.retryInterval)) s.options.retryInterval
      sendLoop idName senderErr now message options rInterval env k0 retryCount 0 none s
    else
      runAttempt idName senderErr (now 0) s message options k0 (env 0)

/-- A task deferred by `setTimeout(() => ..., 0)`. -/
inductive Deferred where
  | removeFromPort (sid : Nat)
  deriving Repr, DecidableEq

/-- `Session.end()`: cancel the outstanding exchange when pending, mark
`destroyed`, and defer `this.port.remove(this.id)` by one scheduling tick. -/
def Session.endFn (s : SessionState) : SessionState × List Event × List Deferred :=
  let c := if s.pending then Session.cancel s else (s, [])
  ({ c.1 with destroyed := true }, c.2, [.removeFromPort c.1.id])

/-! ## `port.ts`: the session pool -/

/-- `Required<SessionPortOptions>` minus the function-valued members: the
`sender` is characterised by `senderErr` at its call sites and
`onSessionOverflow` is passed explicitly where it is invoked. -/
structure PortOptions where
  name : String := "default"
  retryCount : Nat := 0
  retryInterval : Int := 1000
  maxSessionCount : Nat := 65535
  sessionIdName : String := "sid"
  sessionTimeout : Int := 10000
  sessionMaxLife : Int := 300000
  deriving Repr, DecidableEq

/- A JS `Map<string, V>` is embedded as an ordered association list with
unique keys. -/
namespace JSMap

/-- `map.get(k)`. -/
def get {α : Type} (l : List (String × α)) (k : String) : Option α :=
  (l.find? (fun kv => kv.1 = k)).map (·.2)

/-- `map.has(k)`. -/
def hasKey {α : Type} (l : List (String × α)) (k : String) : Bool :=
  (get l k).isSome

/-- `map.set(k, v)`: overwrite in place when the key exists (its position is
kept), otherwise append. -/
def set {α : Type} : List (String × α) → String → α → List (String × α)
  | [], k, v => [(k, v)]
  | (k', v') :: rest, k, v =>
      if k' = k then (k', v) :: rest else (k', v') :: set rest k v

/-- `map.delete(k)` (keys are unique, so removing every entry with key `k`
is removing the one entry). -/
def del {α : Type} (l : List (String × α)) (k : String) : List (String × α) :=
  l.filter (fun kv => kv.1 ≠ k)

end JSMap

/-- The mutable fields of a `SessionPort`. -/
structure PortState where
  options : PortOptions
  idSeq : Nat := 1
  sessions : List (String × SessionState) := []
  deriving Repr, DecidableEq

/-- The `SessionPort` constructor state: `_idSeq = 1`, empty table. -/
def SessionPort.init (opts : PortOptions) : PortState :=
  { options := opts }

/-- The loop body of the `for (let i = this._idSeq; i <= maxSessionCount;
i++)` scan of `_getFreeSessionId`, with an explicit fuel argument (the loop
runs at most `maxC + 1 - i` times). -/
def scanFreeAux (sessions : List (String × SessionState)) (maxC : Nat) :
    Nat → Nat → Option Nat
  | 0, _ => none
  | fuel + 1, i =>
      if i ≤ maxC then
        if JSMap.hasKey sessions (toString i) then
          scanFreeAux sessions maxC fuel (i + 1)
        else some i
      else none

/-- The `for (let i = this._idSeq; i <= maxSessionCount; i++)` scan of
`_getFreeSessionId`: the first `i` in `[i, maxC]` whose string form is not a
key of the table. -/
def scanFree (sessions : List (String × SessionState)) (maxC : Nat) (i : Nat) :
    Option Nat :=
  scanFreeAux sessions maxC (maxC + 1 - i) i

/-- `SessionPort._getFreeSessionId`, with the configured `onSessionOverflow`
callback passed as `overflow`.  Returns the chosen id, the updated port
state, the events of the forced `cancel` (if any), and how many times the
overflow callback ran. -/
def SessionPort._getFreeSessionId (overflow : PortState → Nat) (p : PortState) :
    Nat × PortState × List Event × Nat :=
  if p.idSeq ≥ p.options.maxSessionCount then
    let newId := overflow p
    match JSMap.get p.sessions (toString newId) with
    | some sess =>
        let c := Session.cancel sess
        (newId,
         { p with sessions := JSMap.set p.sessions (toString newId) c.1 }, c.2, 1)
    | none => (newId, p, [], 1)
  else
    match scanFree p.sessions p.options.maxSessionCount p.idSeq with
    | some i => (i, { p with idSeq := i }, [], 0)
    | none => (1, p, [], 0)

/-- The default overflow policy `onSessionOverflow: () => 1`. -/
def defaultOverflow : PortState → Nat := fun _ => 1

/-- The option object `SessionPort.create` passes to the `Session`
constructor: `Object.assign({}, { retryCount, retryInterval, timeout:
sessionTimeout }, options)` — Port defaults, overridden by per-session
options. -/
def createSessionOpts (p : PortOptions) (options : Option SessCallOpts) : SessCallOpts :=
  { timeout := assignField (some p.sessionTimeout) (options.bind (·.timeout))
    retryCount := assignField (some p.retryCount) (options.bind (·.retryCount))
    retryInterval := assignField (some p.retryInterval) (options.bind (·.retryInterval)) }

/-- `SessionPort.create`: allocate an id, construct the `Session`, register
it under `String(sid)`.  Returns the new port state, the created session,
the allocation's events, and the overflow-callback invocation count. -/
def SessionPort.create (overflow : PortState → Nat) (p : PortState)
    (options : Option SessCallOpts) (now : Int) :
    PortState × SessionState × List Event × Nat :=
  let g := SessionPort._getFreeSessionId overflow p
  let sess := Session.init g.1 (some (createSessionOpts p.options options)) now
  ({ g.2.1 with sessions := JSMap.set g.2.1.sessions (toString g.1) sess },
   sess, g.2.2.1, g.2.2.2)

/-- The per-session body of `SessionPort.inspect`'s `forEach`: retrying
sessions are skipped; a pending session whose elapsed time exceeds
`sessionTimeout` gets `timeout()`; a non-pending one whose elapsed time
exceeds `sessionMaxLife` gets `end()` and its id is marked expired. -/
def inspectSession (opts : PortOptions) (now : Int) (sess : SessionState) :
    SessionState × List Event × Bool :=
  if sess.retrying then (sess, [], false)
  else
    let elapsedTime := now - sess.lastSendTime
    if sess.pending then
      if elapsedTime > opts.sessionTimeout then
        ((Session.timeout sess).1, (Session.timeout sess).2, false)
      else (sess, [], false)
    else
      if elapsedTime > opts.sessionMaxLife then
        ((Session.endFn sess).1, (Session.endFn sess).2.1, true)
      else (sess, [], false)

/-- `SessionPort.inspect`: run the per-session check over the table, then
delete the collected expired ids (`this.sessions.delete(String(id))`). -/
def SessionPort.inspect (p : PortState) (now : Int) : PortState × List Event :=
  let stepped := p.sessions.map (fun kv => (kv.1, inspectSession p.options now kv.2))
  let expired : List Nat :=
    stepped.filterMap (fun kv => if kv.2.2.2 then some kv.2.1.id else none)
  let updated := stepped.map (fun kv => (kv.1, kv.2.1))
  ({ p with sessions :=
      updated.filter (fun kv => !((expired.map toString).contains kv.1)) },
   (stepped.map (fun kv => kv.2.2.1)).flatten)

/-- The string keys deleted by one `inspect()` run: the expired ids
collected by the sweep, rendered with `String(id)`. -/
def badKeys (p : PortState) (now : Int) : List String :=
  ((p.sessions.map (fun kv => (kv.1, inspectSession p.options now kv.2))).filterMap
      (fun kv => if kv.2.2.2 then some kv.2.1.id else none)).map toString

/-- Modelled from the spec: `SessionPort.remove(sid)` — "table deletion
only, no settlement" (spec §4.2).  The method is invoked by `Session.end()`
and relied on by the tests, but its definition is not among the provided
sources. -/
def SessionPort.remove (p : PortState) (sid : Nat) : PortState :=
  { p with sessions := JSMap.del p.sessions (toString sid) }

/-- Run a task deferred by `Session.end()` against the owning Port. -/
def runDeferred (p : PortState) : Deferred → Except ErrClass PortState
  | .removeFromPort sid => .ok (SessionPort.remove p sid)

/-- In-place mutation of the session object stored under one key: `next` /
`timeout` / `cancel` / `abort` / `end` / `send` all mutate the stored object
without touching its key. -/
def touchSession (p : PortState) (k : String) (f : SessionState → SessionState) :
    PortState :=
  { p with sessions :=
      p.sessions.map (fun kv => if kv.1 = k then (kv.1, f kv.2) else kv) }

/-- `SessionPort.clear`: every session settled (a `touchSession` per entry,
covered by `touch` steps below), then the table is emptied and `_idSeq`
reset to 1. -/
def SessionPort.clearFinal (p : PortState) : PortState :=
  { p with sessions := [], idSeq := 1 }

/-- Port states reachable from a fresh port, for a fixed overflow policy
`F`, under the operations that touch the allocator or the table: `create`,
`clear`, `remove`, `inspect`, and in-place mutation of one stored session. -/
inductive Reachable (F : PortState → Nat) : PortState → Prop
  | init (opts : PortOptions) : Reachable F (SessionPort.init opts)
  | create (p : PortState) (options : Option SessCallOpts) (now : Int) :
      Reachable F p → Reachable F (SessionPort.create F p options now).1
  | clearOp (p : PortState) :
      Reachable F p → Reachable F (SessionPort.clearFinal p)
  | removeOp (p : PortState) (sid : Nat) :
      Reachable F p → Reachable F (SessionPort.remove p sid)
  | inspectOp (p : PortState) (now : Int) :
      Reachable F p → Reachable F (SessionPort.inspect p now).1
  | touch (p : PortState) (k : String) (f : SessionState → SessionState) :
      (∀ s, (f s).id = s.id) →
      Reachable F p → Reachable F (touchSession p k f)

/-! ## `manager.ts`: options and `createPort` -/

/-- The manager's `Required<SessionManagerOptions>` object, together with
the extra properties a `createPort` call writes into that same object
(`name`, `retryCount`, `retryInterval` are not declared on
`SessionManagerOptions`, but `Object.assign(this.options, options, { name })`
adds them).  Function-valued options are represented by identity tags. -/
structure ManagerOptions where
  maxSessionCount : Nat := 65535
  sessionIdName : String := "sid"
  sessionTimeout : Int := 60000
  sessionMaxLife : Int := 600000
  sender : Nat
  onSessionOverflow : Nat := 0
  name : Option String := none
  retryCount : Option Nat := none
  retryInterval : Option Int := none
  deriving Repr, DecidableEq

/-- A `SessionPortOptions` argument to `createPort`: `sender` is required,
everything else optional. -/
structure PortOptionsArg where
  sender : Nat
  name : Option String := none
  retryCount : Option Nat := none
  retryInterval : Option Int := none
  maxSessionCount : Option Nat := none
  sessionIdName : Option String := none
  sessionTimeout : Option Int := none
  sessionMaxLife : Option Int := none
  onSessionOverflow : Option Nat := none
  deriving Repr, DecidableEq

/-- The number of `sender` invocations in a trace. -/
def senderCalls (ev : List Event) : Nat :=
  ev.countP (fun e => match e with | .senderCalled _ => true | _ => false)

/-- `SessionManager.createPort`'s merge
`Object.assign(this.options, options, { name })`: the assign *target* is
`this.options` itself, so this value is both what the new `SessionPort`
receives and the manager's stored options after the call. -/
def SessionManager.createPortAssign (m : ManagerOptions) (name : String)
    (options : PortOptionsArg) : ManagerOptions :=
  { maxSessionCount := (assignField (some m.maxSessionCount) options.maxSessionCount).getD 0
    sessionIdName := (assignField (some m.sessionIdName) options.sessionIdName).getD ""
    sessionTimeout := (assignField (some m.sessionTimeout) options.sessionTimeout).getD 0
    sessionMaxLife := (assignField (some m.sessionMaxLife) options.sessionMaxLife).getD 0
    sender := options.sender
    onSessionOverflow := (assignField (some m.onSessionOverflow) options.onSessionOverflow).getD 0
    name := some name
    retryCount := assignField m.retryCount options.retryCount
    retryInterval := assignField m.retryInterval options.retryInterval }

/-! ## Helper lemmas -/

lemma settleOf_append (l l' : List Event) (k : Nat) :
    settleOf (l ++ l') k =
      match settleOf l k with
      | some o => some o
      | none => settleOf l' k := by
  induction l with
  | nil => simp [settleOf]
  | cons e rest ih =>
      cases e <;> simp only [List.cons_append, settleOf] <;>
        (try split) <;> simp_all

lemma runAttempt_reply (idName : String) (now : Int) (s : SessionState)
    (M R : JSVal) (opts : Option SessCallOpts) (k : Nat) :
    runAttempt idName none now s M opts k (.reply R) =
      ({ s with
          pending := false
          lastSendTime := now
          resolveSlot := some k
          rejectSlot := some k },
       Event.senderCalled (M.setField idName (.vNum s.id)) ::
         ((if 0 < effectiveTimeout opts s.options then
             [Event.timerArmed (effectiveTimeout opts s.options)] else []) ++
          [Event.resolved k R]),
       .ok R) := by
  simp only [runAttempt, Session._send, Session.next]
  split <;> simp_all [settleOf]

lemma runAttempt_timedOut (idName : String) (now : Int) (s : SessionState)
    (M : JSVal) (opts : Option SessCallOpts) (k : Nat) :
    runAttempt idName none now s M opts k .timedOut =
      ({ s with
          pending := false
          lastSendTime := now
          resolveSlot := some k
          rejectSlot := some k },
       Event.senderCalled (M.setField idName (.vNum s.id)) ::
         ((if 0 < effectiveTimeout opts s.options then
             [Event.timerArmed (effectiveTimeout opts s.options)] else []) ++
          [Event.rejected k (some .sessionTimeoutError)]),
       .error (some .sessionTimeoutError)) := by
  simp only [runAttempt, Session._send, Session.timeout]
  split <;> simp_all [settleOf]

/-! ## Claim theorems -/

/-- **C9** — Message classification is total and exception-free: for every
embedded input value, `isSession` agrees with the spec's classification
(`specIsSession`): true exactly for a non-null object that contains the
configured id field with a value greater than zero; `null`, non-objects,
missing fields, non-positive values, and a field whose read throws all give
`false`, with no exception escaping. -/
theorem claim_C9_isSession_classification (idName : String) (m : JSVal) :
    isSession idName m = specIsSession idName m := by
  cases m with
  | vObj fields =>
      simp only [isSession, specIsSession, JSVal.truthy, Bool.not_true,
        isSessionBody, JSVal.typeofIsObject, JSVal.jsIn, JSVal.jsGet]
      cases h : fields.find idName with
      | none => simp [h, Except.bind]
      | some v => cases v <;> simp [h, Except.bind]
  | vNull => rfl
  | vUndefined => rfl
  | vBool b => cases b <;> rfl
  | vNum n =>
      by_cases h : n = 0 <;>
        simp [isSession, specIsSession, JSVal.truthy, h, isSessionBody,
          JSVal.typeofIsObject, JSVal.jsIn]
  | vStr s =>
      by_cases h : s = "" <;>
        simp [isSession, specIsSession, JSVal.truthy, h, isSessionBody,
          JSVal.typeofIsObject, JSVal.jsIn]
  | vThrow => rfl

/-- **C8** — `send` on a destroyed session fails immediately and atomically
with `SessionInvalidError` (a subclass of `SessionError`): the state is
returned unchanged (`pending` untouched, `lastSendTime` untouched) and the
event trace is empty, so the sender is never invoked. -/
theorem claim_C8_send_on_destroyed (idName : String) (senderErr : Option ErrClass)
    (now : Nat → Int) (s : SessionState) (M : JSVal) (options : Option SessCallOpts)
    (env : Nat → AttemptEnv) (k0 : Nat) (h : s.destroyed = true) :
    Session.send idName senderErr now s M options env k0 =
      (s, [], .error (some .sessionInvalidError))
    ∧ ErrClass.instanceOf .sessionInvalidError .sessionError = true := by
  refine ⟨?_, rfl⟩
  simp [Session.send, h]

/-- Witness for C8 at a concrete destroyed session. -/
theorem claim_C8_send_on_destroyed_witness :
    Session.send "sid" none (fun _ => 0)
        { Session.init 9 none 0 with destroyed := true }
        (JSVal.vObj .nil) none (fun _ => .timedOut) 0 =
      ({ Session.init 9 none 0 with destroyed := true }, [],
        .error (some .sessionInvalidError))
    ∧ ErrClass.instanceOf .sessionInvalidError .sessionError = true :=
  claim_C8_send_on_destroyed "sid" none (fun _ => 0)
    { Session.init 9 none 0 with destroyed := true }
    (JSVal.vObj .nil) none (fun _ => .timedOut) 0 rfl

/-- **C3** — the per-call timeout override is *discarded* by the code: in
`Session._send`, `Object.assign({}, options, this.options)` puts the
session's own (total) options last, so the merged `timeout` is always the
session default.  Concretely, a session whose default timeout is 10000 ms,
sent with the per-call override `{ timeout: 5 }`, arms its dedicated timer
with 10000 ms, not 5 ms — the unanswered exchange rejects after the
session/Port default, contradicting the claim. -/
theorem claim_C3_per_call_timeout_discarded :
    effectiveTimeout (some { timeout := some 5 })
        { timeout := 10000, retryCount := 0, retryInterval := 1000 } = 10000
    ∧ (Session._send "sid" none 0 (Session.init 1 (some { timeout := some 10000 }) 0)
        (JSVal.vObj .nil) (some { timeout := some 5 }) 0).2.2 =
      [.senderCalled (JSVal.vObj (.cons "sid" (.vNum 1) .nil)), .timerArmed 10000]
    ∧ Event.timerArmed 5 ∉
        (Session._send "sid" none 0 (Session.init 1 (some { timeout := some 10000 }) 0)
          (JSVal.vObj .nil) (some { timeout := some 5 }) 0).2.2 := by
  refine ⟨rfl, rfl, ?_⟩
  decide

/-- **C10** — `SessionManager.createPort` *mutates* the Manager's stored
options: `Object.assign(this.options, options, { name })` has
`this.options` as its target.  At a concrete input, after
`createPort("p1", { sender, retryCount: 7 })` the manager's options have
gained `name = "p1"` and `retryCount = 7` and the port's sender — they are
not left unchanged as the claim states. -/
theorem claim_C10_createPort_mutates_manager :
    SessionManager.createPortAssign { sender := 1 } "p1"
        { sender := 2, retryCount := some 7 } ≠ ({ sender := 1 } : ManagerOptions)
    ∧ (SessionManager.createPortAssign { sender := 1 } "p1"
        { sender := 2, retryCount := some 7 }).name = some "p1"
    ∧ (SessionManager.createPortAssign { sender := 1 } "p1"
        { sender := 2, retryCount := some 7 }).retryCount = some 7
    ∧ (SessionManager.createPortAssign { sender := 1 } "p1"
        { sender := 2, retryCount := some 7 }).sender = 2 := by
  refine ⟨?_, rfl, rfl, rfl⟩
  decide

lemma senderCalls_append (l l' : List Event) :
    senderCalls (l ++ l') = senderCalls l + senderCalls l' := by
  simp [senderCalls, List.countP_append]

/-- One unfolding step of the retry loop (the definitional equation for a
positive number of remaining attempts). -/
lemma sendLoop_succ (idName : String) (senderErr : Option ErrClass) (now : Nat → Int)
    (M : JSVal) (opts : Option SessCallOpts) (rInt : Int) (env : Nat → AttemptEnv)
    (k0 rem i : Nat) (he : Option ErrClass) (s : SessionState) :
    sendLoop idName senderErr now M opts rInt env k0 (rem + 1) i he s =
      (let s1 := if i > 0 then { s with retrying := true } else s
       let a := runAttempt idName senderErr (now i) s1 M opts (k0 + i) (env i)
       match a.2.2 with
       | .ok v => ({ a.1 with retrying := false }, a.2.1, .ok v)
       | .error r =>
           let waitEv : List Event := if rem = 0 then [] else [.waited rInt]
           let rest :=
             sendLoop idName senderErr now M opts rInt env k0 rem (i + 1) r a.1
           (rest.1, a.2.1 ++ waitEv ++ rest.2.1, rest.2.2)) := rfl

/-- With a transport that never replies, every pass of the retry loop calls
the sender exactly once; the final result is the timeout rejection. -/
lemma sendLoop_never_reply_out (idName : String) (now : Nat → Int) (M : JSVal)
    (opts : Option SessCallOpts) (rInt : Int) (k0 : Nat) :
    ∀ (rem i : Nat) (he : Option ErrClass) (s : SessionState), 0 < rem →
      (sendLoop idName none now M opts rInt (fun _ => .timedOut) k0 rem i he s).2.2 =
        .error (some .sessionTimeoutError) := by
  intro rem
  induction rem with
  | zero => intro i he s h; omega
  | succ n ih =>
      intro i he s _
      simp only [sendLoop_succ, runAttempt_timedOut]
      cases n with
      | zero => simp [sendLoop]
      | succ m => exact ih (i + 1) (some .sessionTimeoutError) _ (Nat.succ_pos m)

/-- Sender-invocation count of the retry loop under a never-replying
transport: one call per remaining attempt. -/
lemma sendLoop_never_reply_count (idName : String) (now : Nat → Int) (M : JSVal)
    (opts : Option SessCallOpts) (rInt : Int) (k0 : Nat) :
    ∀ (rem i : Nat) (he : Option ErrClass) (s : SessionState), 0 < rem →
      senderCalls
        (sendLoop idName none now M opts rInt (fun _ => .timedOut) k0 rem i he s).2.1 =
        rem := by
  intro rem
  induction rem with
  | zero => intro i he s h; omega
  | succ n ih =>
      intro i he s _
      simp only [sendLoop_succ, runAttempt_timedOut]
      cases n with
      | zero =>
          simp only [sendLoop]
          rw [senderCalls_append, senderCalls_append]
          split <;> simp [senderCalls, List.countP_cons]
      | succ m =>
          rw [senderCalls_append, senderCalls_append]
          rw [ih (i + 1) (some .sessionTimeoutError) _ (Nat.succ_pos m)]
          split <;> split <;> simp [senderCalls, List.countP_cons] <;> omega

/-- **C1** — Round trip: on a non-destroyed session with a sender that
delivers, if the environment answers the first attempt by feeding the reply
`R` (which carries the session's id in the configured id field) to
`next()`, then `send(M)`'s promise resolves with exactly the object `R`,
unmodified, and `pending` is false afterwards. -/
theorem claim_C1_round_trip (idName : String) (now : Nat → Int) (s : SessionState)
    (M R : JSVal) (env : Nat → AttemptEnv) (k0 : Nat)
    (hdes : s.destroyed = false) (henv : env 0 = .reply R)
    (_hid : R.jsGet idName = .ok (.vNum s.id)) :
    (Session.send idName none now s M none env k0).2.2 = .ok R
    ∧ settleOf (Session.send idName none now s M none env k0).2.1 k0 =
        some (.resolvedWith R)
    ∧ (Session.send idName none now s M none env k0).1.pending = false := by
  cases hretry : s.options.retryCount with
  | zero =>
      have hstep : Session.send idName none now s M none env k0 =
          runAttempt idName none (now 0) s M none k0 (env 0) := by
        simp [Session.send, hdes, jsOrNat, hretry]
      rw [hstep, henv, runAttempt_reply]
      refine ⟨rfl, ?_, rfl⟩
      split <;> simp [settleOf]
  | succ n =>
      have hstep : Session.send idName none now s M none env k0 =
          sendLoop idName none now M none s.options.retryInterval env k0
            (n + 1 + 1) 0 none s := by
        have h2 : (1 : Nat) < n + 1 + 1 := by omega
        simp [Session.send, hdes, jsOrNat, jsOrInt, hretry, h2]
      rw [hstep, sendLoop_succ]
      simp only [gt_iff_lt, lt_irrefl, if_false, Nat.add_zero, henv]
      rw [runAttempt_reply]
      refine ⟨rfl, ?_, rfl⟩
      split
      · split <;> simp [settleOf]
      · simp_all

/-- Witness for C1: a concrete session (id 5, default-like options), a
concrete request and a concrete reply carrying `sid = 5`. -/
theorem claim_C1_round_trip_witness :
    (Session.send "sid" none (fun _ => 0)
        (Session.init 5 (some { timeout := some 10000 }) 0)
        (JSVal.vObj (.cons "type" (.vStr "request") .nil)) none
        (fun _ => .reply (JSVal.vObj (.cons "sid" (.vNum 5)
          (.cons "type" (.vStr "response") .nil)))) 0).2.2 =
      .ok (JSVal.vObj (.cons "sid" (.vNum 5) (.cons "type" (.vStr "response") .nil)))
    ∧ settleOf (Session.send "sid" none (fun _ => 0)
        (Session.init 5 (some { timeout := some 10000 }) 0)
        (JSVal.vObj (.cons "type" (.vStr "request") .nil)) none
        (fun _ => .reply (JSVal.vObj (.cons "sid" (.vNum 5)
          (.cons "type" (.vStr "response") .nil)))) 0).2.1 0 =
      some (.resolvedWith (JSVal.vObj (.cons "sid" (.vNum 5)
        (.cons "type" (.vStr "response") .nil))))
    ∧ (Session.send "sid" none (fun _ => 0)
        (Session.init 5 (some { timeout := some 10000 }) 0)
        (JSVal.vObj (.cons "type" (.vStr "request") .nil)) none
        (fun _ => .reply (JSVal.vObj (.cons "sid" (.vNum 5)
          (.cons "type" (.vStr "response") .nil)))) 0).1.pending = false :=
  claim_C1_round_trip "sid" (fun _ => 0)
    (Session.init 5 (some { timeout := some 10000 }) 0)
    (JSVal.vObj (.cons "type" (.vStr "request") .nil))
    (JSVal.vObj (.cons "sid" (.vNum 5) (.cons "type" (.vStr "response") .nil)))
    (fun _ => .reply (JSVal.vObj (.cons "sid" (.vNum 5)
      (.cons "type" (.vStr "response") .nil)))) 0 rfl rfl rfl

/-- **C2** — Retry count: with effective retry count `R > 0` and a transport
that never delivers (every attempt ends in timeout), one `send(M)` call
invokes the sender exactly `R + 1` times and the promise rejects with the
last observed error (the final attempt's `SessionTimeoutError`). -/
theorem claim_C2_retry_count (idName : String) (now : Nat → Int) (s : SessionState)
    (M : JSVal) (options : Option SessCallOpts) (R k0 : Nat)
    (hdes : s.destroyed = false)
    (hR : jsOrNat (options.bind (·.retryCount)) s.options.retryCount = R)
    (hpos : 0 < R) :
    senderCalls
      (Session.send idName none now s M options (fun _ => .timedOut) k0).2.1 = R + 1
    ∧ (Session.send idName none now s M options (fun _ => .timedOut) k0).2.2 =
        .error (some .sessionTimeoutError) := by
  have hgt : jsOrNat (options.bind (·.retryCount)) s.options.retryCount + 1 > 1 := by
    omega
  simp only [Session.send, hdes, Bool.false_eq_true, if_false, hgt, if_true]
  constructor
  · rw [sendLoop_never_reply_count _ _ _ _ _ _ _ 0 none s (by omega), hR]
  · exact sendLoop_never_reply_out _ _ _ _ _ _ _ 0 none s (by omega)

/-- Witness for C2 at a concrete session with `retryCount = 2`: three sender
invocations, final rejection with `SessionTimeoutError`. -/
theorem claim_C2_retry_count_witness :
    senderCalls (Session.send "sid" none (fun _ => 0)
        (Session.init 1 (some { timeout := some 100, retryCount := some 2 }) 0)
        (JSVal.vObj .nil) none (fun _ => .timedOut) 0).2.1 = 2 + 1
    ∧ (Session.send "sid" none (fun _ => 0)
        (Session.init 1 (some { timeout := some 100, retryCount := some 2 }) 0)
        (JSVal.vObj .nil) none (fun _ => .timedOut) 0).2.2 =
        .error (some .sessionTimeoutError) :=
  claim_C2_retry_count "sid" (fun _ => 0)
    (Session.init 1 (some { timeout := some 100, retryCount := some 2 }) 0)
    (JSVal.vObj .nil) none 2 0 rfl rfl (by decide)

/-- **C4 (counterexample)** — settlement does *not* clear the continuation
slots, and a stale per-call timer *can* reject a subsequently started
exchange: after `next()` settles exchange 0 the slots still hold
continuations, and once a second exchange (id 1) has been started on the
same session, a stale `timeout()` firing rejects exchange 1 with
`SessionTimeoutError`. -/
theorem claim_C4_counterexample :
    (let s0 := Session.init 7 (some { timeout := some 10000 }) 0
     let s1 := (Session._send "sid" none 100 s0 (JSVal.vObj .nil) none 0).1
     let s2 := (Session.next s1 (JSVal.vObj (.cons "sid" (.vNum 7) .nil))).1
     let s3 := (Session._send "sid" none 200 s2 (JSVal.vObj .nil) none 1).1
     s2.resolveSlot = some 0 ∧ s2.resolveSlot ≠ none
       ∧ s2.rejectSlot = some 0 ∧ s2.rejectSlot ≠ none
       ∧ (Session.timeout s3).2 = [.rejected 1 (some .sessionTimeoutError)]
       ∧ settleOf (Session.timeout s3).2 1 =
           some (.rejectedWith (some .sessionTimeoutError))) := by
  decide

lemma JSMap.get_del_self {α : Type} (l : List (String × α)) (k : String) :
    JSMap.get (JSMap.del l k) k = none := by
  induction l with
  | nil => rfl
  | cons kv rest ih =>
      by_cases h : kv.1 = k
      · simp only [JSMap.del, ne_eq, decide_not] at ih
        simp [JSMap.del, List.filter_cons, h, decide_not, ih]
      · simp only [JSMap.del, ne_eq, decide_not] at ih
        simp [JSMap.del, JSMap.get, List.filter_cons, h, decide_not, ih]

/-- **C4 (amended)** — what settlement actually does: `next` / `timeout` /
`cancel` / `abort` set `pending` to false and fire the stored continuation,
but the continuation slots are *not* cleared.  Consequently a stale
`timeout()` firing (e.g. a per-call timer of an earlier exchange) rejects
whatever exchange currently owns the slots: if a new exchange `k'` has been
started by `_send`, the stale firing rejects `k'`.  The only protection for
an *already-settled* exchange is JS promise semantics — the first
settlement of an exchange wins and a later rejection of the same exchange
is a no-op. -/
theorem claim_C4_amended (s : SessionState) (m : JSVal) (e : Option ErrClass) :
    ((Session.next s m).1.resolveSlot = s.resolveSlot
      ∧ (Session.next s m).1.rejectSlot = s.rejectSlot
      ∧ (Session.next s m).1.pending = false)
    ∧ ((Session.timeout s).1.resolveSlot = s.resolveSlot
      ∧ (Session.timeout s).1.rejectSlot = s.rejectSlot
      ∧ (Session.timeout s).1.pending = false)
    ∧ ((Session.cancel s).1.resolveSlot = s.resolveSlot
      ∧ (Session.cancel s).1.rejectSlot = s.rejectSlot)
    ∧ ((Session.abort e s).1.resolveSlot = s.resolveSlot
      ∧ (Session.abort e s).1.rejectSlot = s.rejectSlot)
    ∧ (∀ (idName : String) (now : Int) (M : JSVal) (opts : Option SessCallOpts)
        (k' : Nat),
        (Session.timeout (Session._send idName none now s M opts k').1).2 =
          [.rejected k' (some .sessionTimeoutError)]
        ∧ (Session.timeout (Session._send idName none now s M opts k').1).1.pending =
            false)
    ∧ (∀ (ev : List Event) (k : Nat) (r : Option ErrClass) (o : Outcome),
        settleOf ev k = some o → settleOf (ev ++ [.rejected k r]) k = some o) := by
  refine ⟨⟨rfl, rfl, rfl⟩, ⟨rfl, rfl, rfl⟩, ⟨rfl, rfl⟩, ⟨rfl, rfl⟩, ?_, ?_⟩
  · intro idName now M opts k'
    exact ⟨rfl, rfl⟩
  · intro ev k r o h
    rw [settleOf_append, h]

/-- Witness for the amended C4: the first-settlement-wins conjunct applied
to a concretely settled exchange, and slot preservation at a concrete
session. -/
theorem claim_C4_amended_witness :
    settleOf ([Event.resolved 0 (JSVal.vObj .nil)] ++
        [Event.rejected 0 (some .sessionTimeoutError)]) 0 =
      some (.resolvedWith (JSVal.vObj .nil)) :=
  (claim_C4_amended (Session.init 1 none 0) (JSVal.vObj .nil) none).2.2.2.2.2
    [Event.resolved 0 (JSVal.vObj .nil)] 0 (some .sessionTimeoutError)
    (.resolvedWith (JSVal.vObj .nil)) rfl

/-- **C5** — `end()` semantics: when the session is pending its outstanding
exchange is cancelled first (the caller's promise is settled with a
`SessionCancelError`), `destroyed` becomes true, and the single deferred
task removes the session from the owning Port's table; running that
deferred task returns without raising an error and afterwards the table no
longer contains the session's id. -/
theorem claim_C5_end_semantics (s : SessionState) (p : PortState) (k : Nat)
    (hk : s.pending = true → s.rejectSlot = some k) :
    (Session.endFn s).1.destroyed = true
    ∧ (s.pending = true →
        (Session.endFn s).2.1 = [.rejected k (some .sessionCancelError)])
    ∧ (s.pending = false → (Session.endFn s).2.1 = [])
    ∧ (Session.endFn s).2.2 = [.removeFromPort s.id]
    ∧ runDeferred p (.removeFromPort s.id) = .ok (SessionPort.remove p s.id)
    ∧ JSMap.get (SessionPort.remove p s.id).sessions (toString s.id) = none := by
  cases hp : s.pending with
  | false =>
      refine ⟨rfl, ?_, ?_, ?_, rfl, ?_⟩
      · intro h; simp at h
      · intro _; simp [Session.endFn, hp]
      · simp [Session.endFn, hp]
      · exact JSMap.get_del_self p.sessions (toString s.id)
  | true =>
      have hk' := hk hp
      refine ⟨rfl, ?_, ?_, ?_, rfl, ?_⟩
      · intro _; simp [Session.endFn, hp, Session.cancel, hk']
      · intro h; simp at h
      · simp [Session.endFn, hp, Session.cancel]
      · exact JSMap.get_del_self p.sessions (toString s.id)

/-- Witness for C5: a concrete pending session (id 4, exchange 0) held by a
concrete port. -/
theorem claim_C5_end_semantics_witness :
    (let s : SessionState :=
      { id := 4, pending := true, lastSendTime := 0,
        options := { timeout := 10000, retryCount := 0, retryInterval := 1000 },
        resolveSlot := some 0, rejectSlot := some 0 }
     let p : PortState := { options := {}, sessions := [("4", s)] }
     (Session.endFn s).1.destroyed = true
       ∧ (Session.endFn s).2.1 = [.rejected 0 (some .sessionCancelError)]
       ∧ (Session.endFn s).2.2 = [.removeFromPort 4]
       ∧ runDeferred p (.removeFromPort 4) = .ok (SessionPort.remove p 4)
       ∧ JSMap.get (SessionPort.remove p 4).sessions (toString 4) = none) := by
  have h := claim_C5_end_semantics
    { id := 4, pending := true, lastSendTime := 0,
      options := { timeout := 10000, retryCount := 0, retryInterval := 1000 },
      resolveSlot := some 0, rejectSlot := some 0 }
    { options := {},
      sessions := [("4",
        { id := 4, pending := true, lastSendTime := 0,
          options := { timeout := 10000, retryCount := 0, retryInterval := 1000 },
          resolveSlot := some 0, rejectSlot := some 0 })] }
    0 (fun _ => rfl)
  exact ⟨h.1, h.2.1 rfl, h.2.2.2.1, h.2.2.2.2.1, h.2.2.2.2.2⟩

lemma JSMap.get_mem {α : Type} {l : List (String × α)} {k : String} {v : α}
    (h : JSMap.get l k = some v) : (k, v) ∈ l := by
  unfold JSMap.get at h
  cases hf : l.find? (fun kv => kv.1 = k) with
  | none => rw [hf] at h; cases h
  | some kv =>
      rw [hf] at h
      have hm := List.mem_of_find?_eq_some hf
      have hp := List.find?_some hf
      obtain ⟨k1, v1⟩ := kv
      simp at h hp
      subst h; subst hp
      exact hm

lemma JSMap.get_of_mem_nodup {α : Type} {l : List (String × α)}
    (hnd : (l.map Prod.fst).Nodup) {k : String} {v : α} (hm : (k, v) ∈ l) :
    JSMap.get l k = some v := by
  induction l with
  | nil => cases hm
  | cons kv rest ih =>
      rcases List.mem_cons.mp hm with h | h
      · rw [← h]
        simp [JSMap.get]
      · rw [List.map_cons] at hnd
        have hnd' := List.nodup_cons.mp hnd
        have hk : ¬ kv.1 = k := by
          intro he
          have hin : k ∈ rest.map Prod.fst := List.mem_map.mpr ⟨(k, v), h, rfl⟩
          rw [← he] at hin
          exact hnd'.1 hin
        have := ih hnd'.2 h
        simpa [JSMap.get, List.find?_cons, hk] using this

lemma JSMap.get_map_value {α β : Type} (f : α → β) (l : List (String × α))
    (k : String) :
    JSMap.get (l.map (fun kv => (kv.1, f kv.2))) k = (JSMap.get l k).map f := by
  induction l with
  | nil => rfl
  | cons kv rest ih =>
      by_cases h : kv.1 = k
      · simp [JSMap.get, h]
      · simpa [JSMap.get, h] using ih

/-- Looking a key up after filtering by a key-only predicate. -/
lemma JSMap.get_filter_key_pred {α : Type} (q : String → Bool)
    (l : List (String × α)) (k : String) :
    JSMap.get (l.filter (fun kv => q kv.1)) k =
      if q k then JSMap.get l k else none := by
  induction l with
  | nil => simp [JSMap.get]
  | cons kv rest ih =>
      simp only [List.filter_cons]
      by_cases hk : kv.1 = k
      · subst hk
        by_cases hq : q kv.1
        · simp [hq, JSMap.get]
        · simp [hq, ih]
      · by_cases hq : q kv.1
        · simp only [hq, if_true]
          rw [show JSMap.get (kv :: rest.filter (fun kv => q kv.1)) k =
              JSMap.get (rest.filter (fun kv => q kv.1)) k by
            simp [JSMap.get, List.find?_cons, hk]]
          rw [show JSMap.get (kv :: rest) k = JSMap.get rest k by
            simp [JSMap.get, List.find?_cons, hk]]
          rw [ih]
        · simp only [Bool.not_eq_true] at hq
          simp only [hq, Bool.false_eq_true, if_false]
          rw [show JSMap.get (kv :: rest) k = JSMap.get rest k by
            simp [JSMap.get, List.find?_cons, hk]]
          rw [ih]

/-- The id of a session is never changed by the sweep's per-session step. -/
lemma inspectSession_id (o : PortOptions) (now : Int) (s : SessionState) :
    (inspectSession o now s).1.id = s.id := by
  unfold inspectSession
  dsimp only
  repeat' split
  all_goals
    (first
      | rfl
      | simp_all [Session.timeout, Session.endFn, Session.cancel])

/-- A pending session is never pushed onto the expired list. -/
lemma inspectSession_pending_flag (o : PortOptions) (now : Int) (s : SessionState)
    (h : s.pending = true) : (inspectSession o now s).2.2 = false := by
  unfold inspectSession
  dsimp only
  repeat' split
  all_goals rfl

/-- The per-session sweep step on a pending, non-retrying session whose
elapsed time exceeds `sessionTimeout`: `timeout()` fires. -/
lemma inspectSession_timedOut (o : PortOptions) (now : Int) (s : SessionState)
    (k : Nat) (hr : s.retrying = false) (hp : s.pending = true)
    (he : o.sessionTimeout < now - s.lastSendTime) (hslot : s.rejectSlot = some k) :
    inspectSession o now s =
      ({ s with pending := false },
       [.rejected k (some .sessionTimeoutError)], false) := by
  simp [inspectSession, hr, hp, he, Session.timeout, hslot]

/-- The per-session sweep step leaves a session untouched when it is
retrying, or pending within the `sessionTimeout` window, or idle within the
`sessionMaxLife` window. -/
lemma inspectSession_untouched (o : PortOptions) (now : Int) (s : SessionState)
    (h : s.retrying = true
      ∨ (s.pending = true ∧ now - s.lastSendTime ≤ o.sessionTimeout)
      ∨ (s.pending = false ∧ now - s.lastSendTime ≤ o.sessionMaxLife)) :
    inspectSession o now s = (s, [], false) := by
  rcases h with h | ⟨h1, h2⟩ | ⟨h1, h2⟩
  · simp [inspectSession, h]
  · simp [inspectSession, h1, not_lt.mpr h2]
  · simp [inspectSession, h1, not_lt.mpr h2]

/-- **C7** — Sweep frame property: a run of `inspect()` rejects the
outstanding exchange of every session that is pending, not retrying and
past `sessionTimeout` (emitting a `SessionTimeoutError` rejection and
setting `pending` to false) while keeping the session registered in the
table with `destroyed` untouched; sessions that are retrying or within
their windows are left exactly as they were. -/
lemma inspect_sessions_eq (p : PortState) (now : Int) :
    (SessionPort.inspect p now).1.sessions =
      ((p.sessions.map (fun kv => (kv.1, inspectSession p.options now kv.2))).map
          (fun kv => (kv.1, kv.2.1))).filter
        (fun kv => !((badKeys p now).contains kv.1)) := rfl

lemma inspect_events_eq (p : PortState) (now : Int) :
    (SessionPort.inspect p now).2 =
      ((p.sessions.map (fun kv => (kv.1, inspectSession p.options now kv.2))).map
          (fun kv => kv.2.2.1)).flatten := rfl

theorem claim_C7_sweep_timeout (p : PortState) (now : Int) (key : String)
    (s : SessionState) (k : Nat)
    (hnd : (p.sessions.map Prod.fst).Nodup)
    (hwf : ∀ kv ∈ p.sessions, kv.1 = toString kv.2.id)
    (hget : JSMap.get p.sessions key = some s)
    (hretr : s.retrying = false)
    (hpend : s.pending = true)
    (helap : p.options.sessionTimeout < now - s.lastSendTime)
    (hslot : s.rejectSlot = some k) :
    JSMap.get (SessionPort.inspect p now).1.sessions key =
      some { s with pending := false }
    ∧ Event.rejected k (some .sessionTimeoutError) ∈ (SessionPort.inspect p now).2
    ∧ (SessionState.destroyed { s with pending := false }) = s.destroyed
    ∧ ∀ key₂ s₂, JSMap.get p.sessions key₂ = some s₂ →
        (s₂.retrying = true
          ∨ (s₂.pending = true ∧ now - s₂.lastSendTime ≤ p.options.sessionTimeout)
          ∨ (s₂.pending = false ∧ now - s₂.lastSendTime ≤ p.options.sessionMaxLife)) →
        JSMap.get (SessionPort.inspect p now).1.sessions key₂ = some s₂ := by
  have hbad : ∀ (key' : String) (s' : SessionState),
      JSMap.get p.sessions key' = some s' →
      (inspectSession p.options now s').2.2 = false →
      (badKeys p now).contains key' = false := by
    intro key' s' hget' hflag'
    by_contra hc
    rw [Bool.not_eq_false] at hc
    rw [List.contains_eq_any_beq] at hc
    obtain ⟨x, hx, hxk⟩ := List.any_eq_true.mp hc
    obtain ⟨id', hid', hids⟩ := List.mem_map.mp hx
    obtain ⟨kv2, hkv2, hkveq⟩ := List.mem_filterMap.mp hid'
    obtain ⟨kv, hkv, hkveq2⟩ := List.mem_map.mp hkv2
    rw [← hkveq2] at hkveq
    simp only at hkveq
    by_cases hfl : (inspectSession p.options now kv.2).2.2
    · rw [if_pos hfl] at hkveq
      have hinj := Option.some.inj hkveq
      have hidv : id' = kv.2.id := by
        rw [← hinj]
        exact inspectSession_id p.options now kv.2
      have hkey : kv.1 = key' := by
        have h1 := hwf kv hkv
        have h2 : key' = toString id' := by
          have hbe := beq_iff_eq.mp hxk
          rw [hbe, ← hids]
        rw [h1, ← hidv, h2]
      have hsome : JSMap.get p.sessions key' = some kv.2 :=
        JSMap.get_of_mem_nodup hnd (by rw [← hkey]; exact hkv)
      rw [hget'] at hsome
      have heqs : s' = kv.2 := Option.some.inj hsome
      rw [heqs, hfl] at hflag'
      cases hflag'
    · rw [if_neg hfl] at hkveq
      cases hkveq
  refine ⟨?_, ?_, rfl, ?_⟩
  · rw [inspect_sessions_eq]
    rw [JSMap.get_filter_key_pred (fun x => !((badKeys p now).contains x))]
    rw [hbad key s hget (inspectSession_pending_flag p.options now s hpend)]
    simp only [Bool.not_false, if_true]
    rw [JSMap.get_map_value (fun v : SessionState × List Event × Bool => v.1)]
    rw [JSMap.get_map_value (fun v => inspectSession p.options now v)]
    rw [hget]
    simp [inspectSession_timedOut p.options now s k hretr hpend helap hslot]
  · rw [inspect_events_eq, List.map_map, List.mem_flatten]
    refine ⟨(inspectSession p.options now s).2.1, ?_, ?_⟩
    · exact List.mem_map.mpr ⟨(key, s), JSMap.get_mem hget, rfl⟩
    · rw [inspectSession_timedOut p.options now s k hretr hpend helap hslot]
      simp
  · intro key₂ s₂ hget₂ hun
    rw [inspect_sessions_eq]
    rw [JSMap.get_filter_key_pred (fun x => !((badKeys p now).contains x))]
    rw [hbad key₂ s₂ hget₂
      (by rw [inspectSession_untouched p.options now s₂ hun])]
    simp only [Bool.not_false, if_true]
    rw [JSMap.get_map_value (fun v : SessionState × List Event × Bool => v.1)]
    rw [JSMap.get_map_value (fun v => inspectSession p.options now v)]
    rw [hget₂]
    simp [inspectSession_untouched p.options now s₂ hun]

/-- Witness for C7: a concrete port holding a pending session (id 1,
exchange 0, last sent at 0, timeout 10000) and a retrying one (id 2),
swept at time 20000. -/
theorem claim_C7_sweep_timeout_witness :
    (let s1 : SessionState :=
      { id := 1, pending := true, lastSendTime := 0,
        options := { timeout := 10000, retryCount := 0, retryInterval := 1000 },
        resolveSlot := some 0, rejectSlot := some 0 }
     let s2 : SessionState :=
      { id := 2, retrying := true, pending := true, lastSendTime := 0,
        options := { timeout := 10000, retryCount := 0, retryInterval := 1000 } }
     let p : PortState := { options := {}, sessions := [("1", s1), ("2", s2)] }
     JSMap.get (SessionPort.inspect p 20000).1.sessions "1" =
        some { s1 with pending := false }
      ∧ Event.rejected 0 (some .sessionTimeoutError) ∈ (SessionPort.inspect p 20000).2
      ∧ JSMap.get (SessionPort.inspect p 20000).1.sessions "2" = some s2) := by
  have h := claim_C7_sweep_timeout
    { options := {},
      sessions := [("1",
        { id := 1, pending := true, lastSendTime := 0,
          options := { timeout := 10000, retryCount := 0, retryInterval := 1000 },
          resolveSlot := some 0, rejectSlot := some 0 }), ("2",
        { id := 2, retrying := true, pending := true, lastSendTime := 0,
          options := { timeout := 10000, retryCount := 0, retryInterval := 1000 } })] }
    20000 "1"
    { id := 1, pending := true, lastSendTime := 0,
      options := { timeout := 10000, retryCount := 0, retryInterval := 1000 },
      resolveSlot := some 0, rejectSlot := some 0 }
    0 (by decide) (by decide) rfl rfl rfl (by decide) rfl
  exact ⟨h.1, h.2.1, h.2.2.2 "2"
    { id := 2, retrying := true, pending := true, lastSendTime := 0,
      options := { timeout := 10000, retryCount := 0, retryInterval := 1000 } }
    rfl (Or.inl rfl)⟩

lemma scanFree_spec_aux (sessions : List (String × SessionState)) (maxC : Nat) :
    ∀ (fuel i j : Nat), scanFreeAux sessions maxC fuel i = some j →
      i ≤ j ∧ j ≤ maxC ∧ JSMap.hasKey sessions (toString j) = false := by
  intro fuel
  induction fuel with
  | zero =>
      intro i j hs
      cases hs
  | succ n ih =>
      intro i j hs
      unfold scanFreeAux at hs
      by_cases hle : i ≤ maxC
      · rw [if_pos hle] at hs
        by_cases hk : JSMap.hasKey sessions (toString i) = true
        · rw [if_pos hk] at hs
          have h2 := ih (i + 1) j hs
          exact ⟨by omega, h2.2.1, h2.2.2⟩
        · rw [if_neg hk] at hs
          have heq := Option.some.inj hs
          subst heq
          exact ⟨le_refl i, hle, by simpa using hk⟩
      · rw [if_neg hle] at hs
        cases hs

lemma scanFree_spec (sessions : List (String × SessionState)) (maxC i j : Nat)
    (h : scanFree sessions maxC i = some j) :
    i ≤ j ∧ j ≤ maxC ∧ JSMap.hasKey sessions (toString j) = false :=
  scanFree_spec_aux sessions maxC (maxC + 1 - i) i j h

lemma JSMap.mem_set {α : Type} {l : List (String × α)} {k : String} {v : α}
    {kv : String × α} (h : kv ∈ JSMap.set l k v) : kv ∈ l ∨ kv = (k, v) := by
  induction l with
  | nil =>
      unfold JSMap.set at h
      right
      simpa using h
  | cons hd rest ih =>
      unfold JSMap.set at h
      by_cases hh : hd.1 = k
      · rw [if_pos hh] at h
        rcases List.mem_cons.mp h with h1 | h1
        · right; rw [h1, hh]
        · left; exact List.mem_cons_of_mem hd h1
      · rw [if_neg hh] at h
        rcases List.mem_cons.mp h with h1 | h1
        · left; rw [h1]; exact List.mem_cons_self hd rest
        · rcases ih h1 with h2 | h2
          · left; exact List.mem_cons_of_mem hd h2
          · right; exact h2

lemma JSMap.length_set_of_hasKey {α : Type} (l : List (String × α)) (k : String)
    (v : α) (h : JSMap.hasKey l k = true) :
    (JSMap.set l k v).length = l.length := by
  induction l with
  | nil => simp [JSMap.hasKey, JSMap.get] at h
  | cons hd rest ih =>
      unfold JSMap.set
      by_cases hh : hd.1 = k
      · rw [if_pos hh]
        simp
      · rw [if_neg hh]
        have h2 : JSMap.hasKey rest k = true := by
          simpa [JSMap.hasKey, JSMap.get, List.find?_cons, hh] using h
        simp [ih h2]

lemma JSMap.hasKey_set_self {α : Type} (l : List (String × α)) (k : String)
    (v : α) : JSMap.hasKey (JSMap.set l k v) k = true := by
  induction l with
  | nil => simp [JSMap.set, JSMap.hasKey, JSMap.get]
  | cons hd rest ih =>
      unfold JSMap.set
      by_cases hh : hd.1 = k
      · rw [if_pos hh]
        simp [JSMap.hasKey, JSMap.get, List.find?_cons, hh]
      · rw [if_neg hh]
        simpa [JSMap.hasKey, JSMap.get, List.find?_cons, hh] using ih

/-- Allocator invariant along reachable port states: `_idSeq` stays at
least 1, and whenever the table holds a session whose id equals
`maxSessionCount`, `_idSeq` has already reached `maxSessionCount` (so the
next allocation takes the overflow branch). -/
lemma reachable_inv {F : PortState → Nat} {p : PortState} (h : Reachable F p) :
    1 ≤ p.idSeq ∧ ∀ kv ∈ p.sessions,
      kv.2.id = p.options.maxSessionCount → p.options.maxSessionCount ≤ p.idSeq := by
  induction h with
  | init opts =>
      refine ⟨le_refl 1, ?_⟩
      intro kv hkv
      cases hkv
  | create p options now hp ih =>
      by_cases hov : p.options.maxSessionCount ≤ p.idSeq
      · have hseq : (SessionPort.create F p options now).1.idSeq = p.idSeq := by
          cases hocc : JSMap.get p.sessions (toString (F p)) <;>
            simp [SessionPort.create, SessionPort._getFreeSessionId, ge_iff_le,
              hov, hocc]
        have hopt : (SessionPort.create F p options now).1.options = p.options := by
          cases hocc : JSMap.get p.sessions (toString (F p)) <;>
            simp [SessionPort.create, SessionPort._getFreeSessionId, ge_iff_le,
              hov, hocc]
        rw [hseq, hopt]
        exact ⟨ih.1, fun kv _ _ => hov⟩
      · rw [not_le] at hov
        cases hscan : scanFree p.sessions p.options.maxSessionCount p.idSeq with
        | some i =>
            obtain ⟨hge, hle, _⟩ := scanFree_spec _ _ _ _ hscan
            have hcre : (SessionPort.create F p options now).1 =
                { p with
                    idSeq := i
                    sessions := JSMap.set p.sessions (toString i)
                      (Session.init i
                        (some (createSessionOpts p.options options)) now) } := by
              unfold SessionPort.create SessionPort._getFreeSessionId
              rw [if_neg (by omega), hscan]
            rw [hcre]
            refine ⟨?_, ?_⟩
            · show 1 ≤ i
              have := ih.1
              omega
            · intro kv hkv hid
              have hid2 : kv.2.id = p.options.maxSessionCount := hid
              have hkv2 : kv ∈ JSMap.set p.sessions (toString i)
                  (Session.init i (some (createSessionOpts p.options options)) now) :=
                hkv
              show p.options.maxSessionCount ≤ i
              rcases JSMap.mem_set hkv2 with hm | hm
              · have := ih.2 kv hm hid2
                omega
              · rw [hm] at hid2
                simp only [Session.init] at hid2
                omega
        | none =>
            have hcre : (SessionPort.create F p options now).1 =
                { p with
                    sessions := JSMap.set p.sessions (toString 1)
                      (Session.init 1
                        (some (createSessionOpts p.options options)) now) } := by
              unfold SessionPort.create SessionPort._getFreeSessionId
              rw [if_neg (by omega), hscan]
            rw [hcre]
            refine ⟨?_, ?_⟩
            · show 1 ≤ p.idSeq
              exact ih.1
            · intro kv hkv hid
              have hid2 : kv.2.id = p.options.maxSessionCount := hid
              have hkv2 : kv ∈ JSMap.set p.sessions (toString 1)
                  (Session.init 1 (some (createSessionOpts p.options options)) now) :=
                hkv
              show p.options.maxSessionCount ≤ p.idSeq
              rcases JSMap.mem_set hkv2 with hm | hm
              · exact ih.2 kv hm hid2
              · rw [hm] at hid2
                simp only [Session.init] at hid2
                have := ih.1
                omega
  | clearOp p hp ih =>
      refine ⟨le_refl 1, ?_⟩
      intro kv hkv
      cases hkv
  | removeOp p sid hp ih =>
      refine ⟨ih.1, ?_⟩
      intro kv hkv hid
      exact ih.2 kv (List.mem_of_mem_filter hkv) hid
  | inspectOp p now hp ih =>
      refine ⟨ih.1, ?_⟩
      intro kv hkv hid
      have hkvf : kv ∈ ((p.sessions.map
          (fun kv => (kv.1, inspectSession p.options now kv.2))).map
            (fun kv => (kv.1, kv.2.1))).filter
          (fun kv => !((badKeys p now).contains kv.1)) := hkv
      have hkv2 := List.mem_of_mem_filter hkvf
      rw [List.map_map] at hkv2
      obtain ⟨kv0, hkv0, hkv0e⟩ := List.mem_map.mp hkv2
      simp only [Function.comp] at hkv0e
      have hid2 : kv.2.id = p.options.maxSessionCount := hid
      rw [← hkv0e] at hid2
      simp only at hid2
      rw [inspectSession_id p.options now kv0.2] at hid2
      exact ih.2 kv0 hkv0 hid2
  | touch p k f hf hp ih =>
      refine ⟨ih.1, ?_⟩
      intro kv hkv hid
      have hkvm : kv ∈ p.sessions.map
          (fun kv => if kv.1 = k then (kv.1, f kv.2) else kv) := hkv
      have hid2 : kv.2.id = p.options.maxSessionCount := hid
      obtain ⟨kv0, hkv0, hkv0e⟩ := List.mem_map.mp hkvm
      show p.options.maxSessionCount ≤ p.idSeq
      by_cases hk : kv0.1 = k
      · rw [if_pos hk] at hkv0e
        rw [← hkv0e] at hid2
        simp only at hid2
        rw [hf kv0.2] at hid2
        exact ih.2 kv0 hkv0 hid2
      · rw [if_neg hk] at hkv0e
        rw [← hkv0e] at hid2
        exact ih.2 kv0 hkv0 hid2

/-- **C6** — Overflow recycling: on any reachable port that is full
(`maxSessionCount ≥ 1` live sessions; in particular the session stored
under `String(maxSessionCount)` carries that id, so the allocator's
sequence counter has reached the ceiling), a further `create()` invokes
`onSessionOverflow` exactly once, the occupant of the returned id has its
pending exchange (if any) rejected with a `SessionCancelError` before the
id is reassigned to the new session, the table size stays at
`maxSessionCount`, and under the default policy the new session reuses
id 1. -/
theorem claim_C6_overflow_recycling (F : PortState → Nat) (p : PortState)
    (options : Option SessCallOpts) (now : Int) (s_occ s_top : SessionState)
    (hre : Reachable F p)
    (hsize : p.sessions.length = p.options.maxSessionCount)
    (htop : JSMap.get p.sessions (toString p.options.maxSessionCount) = some s_top)
    (htopid : s_top.id = p.options.maxSessionCount)
    (hocc : JSMap.get p.sessions (toString (F p)) = some s_occ) :
    (SessionPort.create F p options now).2.2.2 = 1
    ∧ (SessionPort.create F p options now).2.1.id = F p
    ∧ (∀ k, s_occ.rejectSlot = some k →
        (SessionPort.create F p options now).2.2.1 =
          [.rejected k (some .sessionCancelError)])
    ∧ (s_occ.rejectSlot = none → (SessionPort.create F p options now).2.2.1 = [])
    ∧ (SessionPort.create F p options now).1.sessions.length =
        p.options.maxSessionCount
    ∧ (F = defaultOverflow → (SessionPort.create F p options now).2.1.id = 1) := by
  have hinv := reachable_inv hre
  have hmem : (toString p.options.maxSessionCount, s_top) ∈ p.sessions :=
    JSMap.get_mem htop
  have hseq : p.options.maxSessionCount ≤ p.idSeq := hinv.2 _ hmem htopid
  have hcre : SessionPort.create F p options now =
      ({ p with
          sessions := JSMap.set
            (JSMap.set p.sessions (toString (F p)) (Session.cancel s_occ).1)
            (toString (F p))
            (Session.init (F p) (some (createSessionOpts p.options options)) now) },
       Session.init (F p) (some (createSessionOpts p.options options)) now,
       (Session.cancel s_occ).2, 1) := by
    simp [SessionPort.create, SessionPort._getFreeSessionId, ge_iff_le, hseq,
      hocc]
  rw [hcre]
  have hk1 : JSMap.hasKey p.sessions (toString (F p)) = true := by
    simp [JSMap.hasKey, hocc]
  refine ⟨rfl, rfl, ?_, ?_, ?_, ?_⟩
  · intro k hk
    simp [Session.cancel, hk]
  · intro hk
    simp [Session.cancel, hk]
  · show (JSMap.set (JSMap.set p.sessions (toString (F p)) (Session.cancel s_occ).1)
        (toString (F p))
        (Session.init (F p) (some (createSessionOpts p.options options)) now)).length =
      p.options.maxSessionCount
    rw [JSMap.length_set_of_hasKey _ _ _
      (JSMap.hasKey_set_self p.sessions (toString (F p)) (Session.cancel s_occ).1)]
    rw [JSMap.length_set_of_hasKey _ _ _ hk1]
    exact hsize
  · intro hF
    subst hF
    rfl

/-- Witness for C6: the spec's sample scenario — a fresh port with
`maxSessionCount = 3` and the default overflow policy, after three
`create()` calls (ids 1, 2, 3); the fourth `create()` runs the overflow
callback once, reuses id 1, and the table size stays 3. -/
theorem claim_C6_overflow_recycling_witness :
    (let p3 : PortState :=
      (SessionPort.create defaultOverflow
        (SessionPort.create defaultOverflow
          (SessionPort.create defaultOverflow
            (SessionPort.init { maxSessionCount := 3 }) none 0).1 none 0).1
        none 0).1
     (SessionPort.create defaultOverflow p3 none 0).2.2.2 = 1
      ∧ (SessionPort.create defaultOverflow p3 none 0).2.1.id = 1
      ∧ (SessionPort.create defaultOverflow p3 none 0).2.2.1 = []
      ∧ (SessionPort.create defaultOverflow p3 none 0).1.sessions.length = 3) := by
  have h := claim_C6_overflow_recycling defaultOverflow
    (SessionPort.create defaultOverflow
      (SessionPort.create defaultOverflow
        (SessionPort.create defaultOverflow
          (SessionPort.init { maxSessionCount := 3 }) none 0).1 none 0).1
      none 0).1
    none 0
    { id := 1, lastSendTime := 0,
      options := { timeout := 10000, retryCount := 0, retryInterval := 1000 } }
    { id := 3, lastSendTime := 0,
      options := { timeout := 10000, retryCount := 0, retryInterval := 1000 } }
    (Reachable.create _ none 0
      (Reachable.create _ none 0
        (Reachable.create _ none 0
          (Reachable.init { maxSessionCount := 3 }))))
    (by decide) (by decide) (by decide) (by decide)
  exact ⟨h.1, h.2.2.2.2.2 rfl, h.2.2.2.1 rfl, h.2.2.2.2.1⟩

end PSession
